import Mathlib

/-!
# Verification of the uniclass-api batch orchestration pipeline

Shallow embedding of the batch query handlers of the `uniclass-api`
repository:

* `ChunkedSeq` — the chunked, sequential-loop batch handler
  (`src/unnamed/part_002`): embeddings fetched in chunks of 100, then one
  per-item similarity lookup inside a `try`/`catch` that converts any
  per-item exception into a `Processing error:0.00` sentinel entry.
* `ParallelSort` — the parallel-dispatch batch handler
  (`src/unnamed/part_000`): same per-item logic but *without* a per-item
  `try`/`catch`; the per-item promises are awaited jointly
  (`Promise.all`) and the result list is re-sorted by
  `(a, b) => a.request_id - b.request_id`.
* `CappedNoChunk` — the size-capped, non-chunked batch handler
  (`src/unnamed/part_001`): rejects batches over 200 queries, issues one
  single embedding call for the whole batch and returns a batch-wide 500
  when that call fails.

JavaScript numbers are idealized as rationals (`ℚ`); `toFixed(2)` is
modelled as decimal rounding (half-up) on `ℚ`.  Remote collaborators
(the embedding provider and the similarity store) are parameters of the
handlers: the provider is a function from a chunk of texts to an
optional list of optional vectors (`none` = the whole call threw or
returned a non-OK status), and the store is a function from an embedding
vector and a category filter to a lookup response.
-/

/-- An embedding vector (JS: array of numbers). -/
abbrev Vec := List ℚ

/-- A `request_id` value supplied by the caller: JS string or number. -/
inductive RId where
  | num (n : Int)
  | str (s : String)
deriving DecidableEq, Repr

/-- JS truthiness of a `request_id` value: `0` and `""` are falsy. -/
def RId.truthy : RId → Bool
  | .num n => n != 0
  | .str s => s != ""

/-- `request_id || i` — the identifier actually attached to a result entry:
the supplied identifier when present and truthy, else the positional
index `i` (mirrors the `request_id || i` expressions in every handler). -/
def effectiveId (rid : Option RId) (i : Nat) : RId :=
  match rid with
  | some r => if r.truthy then r else .num i
  | none => .num i

/-- One element of the incoming `queries` array.  `uniclass_type` is
`none` when the field is absent (or not a string): calling
`.toUpperCase()` on it then throws.  `output_format` is `none` when
absent, in which case the destructuring default `'COBIE'` applies. -/
structure Query where
  query : String
  uniclass_type : Option String
  output_format : Option String
  request_id : Option RId
deriving DecidableEq, Repr

/-- One ranked row returned by the `match_uniclass` RPC. -/
structure Candidate where
  code : String
  title : String
  similarity : ℚ
deriving DecidableEq, Repr

/-- One element of a result entry's `alternatives` array. -/
structure AltEntry where
  code : String
  title : String
  confidence : ℚ
deriving DecidableEq, Repr

/-- One element of the response `results` array. -/
structure ResultEntry where
  request_id : RId
  match_ : String
  confidence : ℚ
  alternatives : List AltEntry
deriving DecidableEq, Repr

/-- Response of a single `supabase.rpc('match_uniclass', …)` call:
either the call reported an `error`, or it returned a (possibly empty)
`data` array of ranked candidates. -/
inductive LookupResp where
  | err
  | ok (data : List Candidate)
deriving DecidableEq, Repr

/-- The similarity store, abstracted as a function of the two
per-query arguments (`query_embedding`, `uniclass_type_filter`); the
`match_threshold` (0.1) and `match_count` (3) arguments are the same
constants at every call site and are folded into the oracle. -/
abbrev Store := Vec → String → LookupResp

/-- The `queries` field of the request body.  `absent` covers a missing
or otherwise falsy value, `notArray` a truthy non-array value; both fail
the `!queries || !Array.isArray(queries)` validation the same way. -/
inductive QueriesField where
  | absent
  | notArray
  | arr (qs : List Query)

/-- Outcome of one HTTP invocation of a batch handler. -/
inductive BatchResponse where
  | ok (processed : Nat) (results : List ResultEntry)
  | badRequest (msg : String)
  | serverError (msg : String)
deriving DecidableEq, Repr

/-- `String.prototype.toUpperCase` restricted to the ASCII casing the
source relies on. -/
def jsToUpper (s : String) : String := String.mk (s.toList.map Char.toUpper)

/-- `Number.prototype.toFixed(2)` idealized on nonnegative rationals:
round the value to the nearest hundredth (half-up) and render it with
exactly two digits after the decimal point.  For `q = num/den ≥ 0` the
rounded numerator is `⌊q·100 + 1/2⌋ = (200·num + den) / (2·den)`,
computed here directly on the numerator and denominator. -/
def toFixed2 (q : ℚ) : String :=
  let n : Nat := ((200 * q.num + (q.den : Int)) / (2 * (q.den : Int))).toNat
  toString (n / 100) ++ "." ++
    String.mk [Nat.digitChar (n / 10 % 10), Nat.digitChar (n % 10)]

/-- The `switch (output_format.toUpperCase())` rendering of the best
candidate: `CODE` → code, `TITLE` → title, anything else (including the
default `COBIE`) → `code:title`. -/
def renderText (fmt : String) (best : Candidate) : String :=
  let f := jsToUpper fmt
  if f = "CODE" then best.code
  else if f = "TITLE" then best.title
  else best.code ++ ":" ++ best.title

/-- The `for (let i = 0; …)` loops that push `f(i, queries[i])` for each
query, as a map carrying the running index. -/
def mapWithIndex (f : Nat → α → β) : Nat → List α → List β
  | _, [] => []
  | i, a :: as => f i a :: mapWithIndex f (i + 1) as

/-- Chunking:
`for (let i = 0; i < texts.length; i += CHUNK_SIZE) chunks.push(texts.slice(i, i + CHUNK_SIZE))`
— contiguous chunks of at most `c` elements, in order.  The recursion is
fuelled by the list length so the definition is structural. -/
def chunksOfAux (c : Nat) : Nat → List α → List (List α)
  | 0, _ => []
  | _, [] => []
  | fuel + 1, a :: as => (a :: as).take c :: chunksOfAux c fuel ((a :: as).drop c)

/-- The chunk partition of `l` into pieces of at most `c` elements. -/
def chunksOf (c : Nat) (l : List α) : List (List α) := chunksOfAux c l.length l

/-- The sizes of the successive chunks, computed on the length alone. -/
def chunkLens (c : Nat) : Nat → Nat → List Nat
  | 0, _ => []
  | _ + 1, 0 => []
  | fuel + 1, n + 1 => min c (n + 1) :: chunkLens c fuel (n + 1 - c)

/-- The embedding provider as seen by the chunked handlers: chunk index
`k` and chunk contents in, and either `none` (the call threw or returned
a non-OK status) or the parsed `data.embeddings.map(emb => emb.values)`
array, whose elements may themselves be `none` (absent `values`). -/
abbrev Provider := Nat → List String → Option (List (Option Vec))

/-- `getBatchEmbeddings` (identical in `part_000`, `part_002` and
`api/batch-match-uniclass.js`): on success the parsed embeddings array
is returned as-is (no length check!), on any error the chunk degrades to
`new Array(texts.length).fill(null)`. -/
def getBatchEmbeddings (respond : List String → Option (List (Option Vec)))
    (texts : List String) : List (Option Vec) :=
  match respond texts with
  | some vs => vs
  | none => List.replicate texts.length none

/-- `Promise.all(embeddingPromises)` followed by `.flat()`: chunk `k` is
answered by `respond k`; the per-chunk result lists are concatenated in
chunk order. -/
def embedChunks (respond : Provider) : Nat → List (List String) → List (Option Vec)
  | _, [] => []
  | k, ch :: rest => getBatchEmbeddings (respond k) ch ++ embedChunks respond (k + 1) rest

/-- The whole embedding stage of the chunked handlers:
partition into chunks of `CHUNK_SIZE = 100`, fetch, flatten. -/
def embedPipeline (respond : Provider) (texts : List String) : List (Option Vec) :=
  embedChunks respond 0 (chunksOf 100 texts)

/-- A provider is *length-respecting* when a successful call returns one
array slot per input text (the provider contract of §6 of the spec). -/
def LengthRespecting (respond : Provider) : Prop :=
  ∀ k ch vs, respond k ch = some vs → vs.length = ch.length

/-- A provider is *pointwise* for an embedding function `g` when a
successful call returns exactly the vector `g t` for each input text
`t`, in order (the deterministic provider contract of §6). -/
def Pointwise (respond : Provider) (g : String → Vec) : Prop :=
  ∀ k ch vs, respond k ch = some vs → vs = ch.map (fun t => some (g t))

/-- The body of the per-item loop of the sequential chunked handler
(`part_002`, also reused verbatim in `part_001`): the four
`results.push` branches inside the `try`, plus the `catch` branch.
`emb = none` models a falsy `embeddings[i]` (null or out of range);
when the embedding is present but `uniclass_type` is absent,
`uniclass_type.toUpperCase()` throws and the `catch` pushes the
`Processing error` sentinel. -/
def processQuery (store : Store) (emb : Option Vec) (i : Nat) (q : Query) : ResultEntry :=
  match emb with
  | none => ⟨effectiveId q.request_id i, "Embedding failed:0.00", 0, []⟩
  | some v =>
    match q.uniclass_type with
    | none => ⟨effectiveId q.request_id i, "Processing error:0.00", 0, []⟩
    | some ut =>
      match store v (jsToUpper ut) with
      | .err => ⟨effectiveId q.request_id i, "Database error:0.00", 0, []⟩
      | .ok [] => ⟨effectiveId q.request_id i, "No match found:0.00", 0, []⟩
      | .ok (best :: rest) =>
        ⟨effectiveId q.request_id i,
          renderText (q.output_format.getD "COBIE") best ++ ":" ++ toFixed2 best.similarity,
          best.similarity,
          rest.map (fun c => ⟨c.code, c.title, c.similarity⟩)⟩

/-- The POST handler of `src/unnamed/part_002` after the method/CORS
boilerplate: validate the `queries` field, fetch chunked embeddings,
run the per-item loop, answer `{success, processed, results}`. -/
def ChunkedSeq.handler (respond : Provider) (store : Store) (body : QueriesField) :
    BatchResponse :=
  match body with
  | .absent => .badRequest "Missing or invalid queries array"
  | .notArray => .badRequest "Missing or invalid queries array"
  | .arr [] => .badRequest "Missing or invalid queries array"
  | .arr (q0 :: rest) =>
    let queries := q0 :: rest
    let embeddings := embedPipeline respond (queries.map Query.query)
    let results := mapWithIndex
      (fun i qi => processQuery store (embeddings[i]?.join) i qi) 0 queries
    .ok results.length results

/-- The `results` list `ChunkedSeq.handler` answers with, named for
reuse in the theorems. -/
def ChunkedSeq.batchResults (respond : Provider) (store : Store) (qs : List Query) :
    List ResultEntry :=
  mapWithIndex
    (fun i qi => processQuery store ((embedPipeline respond (qs.map Query.query))[i]?.join) i qi)
    0 qs

/-- The per-item async closure of `part_000`.  It has **no** inner
`try`/`catch`: when the embedding is present but `uniclass_type` is
absent, `uniclass_type.toUpperCase()` throws and the per-item promise
rejects (`Except.error`). -/
def processQueryP0 (store : Store) (emb : Option Vec) (i : Nat) (q : Query) :
    Except Unit ResultEntry :=
  match emb with
  | none => .ok ⟨effectiveId q.request_id i, "Embedding failed:0.00", 0, []⟩
  | some v =>
    match q.uniclass_type with
    | none => .error ()
    | some ut =>
      match store v (jsToUpper ut) with
      | .err => .ok ⟨effectiveId q.request_id i, "Database error:0.00", 0, []⟩
      | .ok [] => .ok ⟨effectiveId q.request_id i, "No match found:0.00", 0, []⟩
      | .ok (best :: rest) =>
        .ok ⟨effectiveId q.request_id i,
          renderText (q.output_format.getD "COBIE") best ++ ":" ++ toFixed2 best.similarity,
          best.similarity,
          rest.map (fun c => ⟨c.code, c.title, c.similarity⟩)⟩

/-- `Promise.all` over a list of settled promises: the joint await
rejects as soon as any member rejects, otherwise resolves to the list of
values in positional order. -/
def awaitAll : List (Except Unit α) → Except Unit (List α)
  | [] => .ok []
  | .error e :: _ => .error e
  | .ok a :: rest => (awaitAll rest).map (a :: ·)

/-- The natural number denoted by a list of decimal digit characters. -/
def digitsToNat (cs : List Char) : Nat :=
  cs.foldl (fun n c => n * 10 + (c.toNat - 48)) 0

/-- JS `Number(string)` coercion on the decimal fragment of its
grammar: optional surrounding spaces, optional sign, integer digits
and/or a fractional part (`"2.5"`, `" 2"`, `"-1"`, `"5."`, `".5"`); an
empty or all-space string coerces to `0`.  Anything outside this
fragment (exponents, hex, other whitespace, garbage) is `none`, i.e.
`NaN` — the theorems using this exclude `NaN` by hypothesis, so every
`some` value produced here is the exact JS coercion result. -/
def jsStringToNumber (s : String) : Option ℚ :=
  let cs := ((s.toList.dropWhile (· = ' ')).reverse.dropWhile (· = ' ')).reverse
  if cs = [] then some 0
  else
    let signBody : Bool × List Char :=
      match cs with
      | '-' :: t => (true, t)
      | '+' :: t => (false, t)
      | t => (false, t)
    let neg := signBody.1
    let body := signBody.2
    let ip := body.takeWhile Char.isDigit
    let rest := body.dropWhile Char.isDigit
    match rest with
    | [] =>
      if ip = [] then none
      else
        let n : Int := digitsToNat ip
        some (mkRat (if neg then -n else n) 1)
    | '.' :: fp =>
      if fp.all Char.isDigit && (!ip.isEmpty || !fp.isEmpty) then
        let k := fp.length
        let n : Int := digitsToNat ip * (10 ^ k : Nat) + digitsToNat fp
        some (mkRat (if neg then -n else n) (10 ^ k))
      else none
    | _ => none

/-- `Number(x)` coercion of a `request_id` value, as performed by the
subtraction in the sort comparator.  `none` models `NaN`. -/
def toNumber : RId → Option ℚ
  | .num n => some (n : ℚ)
  | .str s => jsStringToNumber s

/-- The numeric sort key of an identifier; the theorems only use it
under the hypothesis that every key is an actual number, so the `NaN`
default is never reached there. -/
def idKey (r : RId) : ℚ := (toNumber r).getD 0

/-- Comparator order of `results.sort((a, b) => a.request_id - b.request_id)`. -/
def entryLe (a b : ResultEntry) : Prop := idKey a.request_id ≤ idKey b.request_id

instance : DecidableRel entryLe := fun a b =>
  inferInstanceAs (Decidable (idKey a.request_id ≤ idKey b.request_id))

/-- `Array.prototype.sort` with the numeric comparator: a stable sort by
the numeric value of `request_id` (ECMAScript sorts are stable, so any
stable sort models it; insertion sort is one). -/
def jsSortById (l : List ResultEntry) : List ResultEntry :=
  List.insertionSort entryLe l

/-- The POST handler of `src/unnamed/part_000`: validate, fetch chunked
embeddings, dispatch all per-item lookups, `Promise.all` them (a single
rejection reaches the outer `catch` → 500), then re-sort by numeric
`request_id`. -/
def ParallelSort.handler (respond : Provider) (store : Store) (body : QueriesField) :
    BatchResponse :=
  match body with
  | .absent => .badRequest "Missing or invalid queries array"
  | .notArray => .badRequest "Missing or invalid queries array"
  | .arr [] => .badRequest "Missing or invalid queries array"
  | .arr (q0 :: rest) =>
    let queries := q0 :: rest
    let embeddings := embedPipeline respond (queries.map Query.query)
    let promises := mapWithIndex
      (fun i qi => processQueryP0 store (embeddings[i]?.join) i qi) 0 queries
    match awaitAll promises with
    | .error _ => .serverError "Internal server error"
    | .ok results =>
      let sortedResults := jsSortById results
      .ok sortedResults.length sortedResults

/-- Whether the per-item body reaches the `supabase.rpc` call: it does
exactly when the embedding is present (else the first branch returns
early) and `uniclass_type` is present (else `.toUpperCase()` throws
before the call). -/
def callsStore (emb : Option Vec) (q : Query) : Bool :=
  emb.isSome && q.uniclass_type.isSome

/-- The POST handler of `src/unnamed/part_001`, instrumented with the
number of embedding-provider calls and similarity-store calls it
performs (second and third components).  Differences from the chunked
handlers, straight from the source: a `queries.length > 200` cap, a
single un-chunked embedding call whose `null` / wrong-length result
aborts the batch with a 500, and the same per-item loop as `part_002`.
The provider argument models its `getBatchEmbeddings`, which resolves to
`null` (`none`) when the call throws. -/
def CappedNoChunk.handler (respond1 : List String → Option (List (Option Vec)))
    (store : Store) (body : QueriesField) : BatchResponse × Nat × Nat :=
  match body with
  | .absent => (.badRequest "Missing or invalid queries array", 0, 0)
  | .notArray => (.badRequest "Missing or invalid queries array", 0, 0)
  | .arr [] => (.badRequest "Missing or invalid queries array", 0, 0)
  | .arr (q0 :: rest) =>
    let queries := q0 :: rest
    if 200 < queries.length then
      (.badRequest "Maximum 200 queries per batch", 0, 0)
    else
      let queryTexts := queries.map Query.query
      match respond1 queryTexts with
      | none => (.serverError "Failed to get batch embeddings", 1, 0)
      | some embeddings =>
        if embeddings.length ≠ queryTexts.length then
          (.serverError "Failed to get batch embeddings", 1, 0)
        else
          let results := mapWithIndex
            (fun i qi => processQuery store (embeddings[i]?.join) i qi) 0 queries
          let lookups := (mapWithIndex
            (fun i qi => callsStore (embeddings[i]?.join) qi) 0 queries).count true
          (.ok results.length results, 1, lookups)

/-- The identifier sequence the spec prescribes for the response.
Modelled from the spec: "the set of identifiers supplied (or, for absent
identifiers, the positional indices)" — the caller-supplied `request_id`
when present (falsy or not), else the positional index.  Stated from the
spec's words, to compare with the code's falsy-fallback behaviour. -/
def specIntendedIds (qs : List Query) : List RId :=
  mapWithIndex (fun i q => match q.request_id with | some r => r | none => .num i) 0 qs

/-- Projection of the `request_id` column out of a 200 response
(`none` for error responses). -/
def responseIds : BatchResponse → Option (List RId)
  | .ok _ rs => some (rs.map ResultEntry.request_id)
  | _ => none

/-! ### Concrete fixtures used by counterexamples and witnesses -/

/-- A provider that answers every chunk with one fixed vector per text. -/
def respond0 : Provider := fun _ ch => some (ch.map (fun _ => some [1]))

/-- A store that always returns one candidate, `Ss_25_10 / Walls / 0.87`. -/
def store0 : Store := fun _ _ => .ok [⟨"Ss_25_10", "Walls", mkRat 87 100⟩]

/-- A store whose every call reports an error. -/
def storeErr : Store := fun _ _ => .err

/-- A plain well-formed query with no caller identifier. -/
def q0 : Query := ⟨"wall", some "pr", some "CODE", none⟩

/-- Batch for the C2 counterexample: supplied identifiers `1` then `0`;
the falsy `0` at position 1 falls back to the index `1`, colliding with
the first entry's identifier. -/
def qsC2 : List Query :=
  [⟨"a", some "pr", none, some (.num 1)⟩, ⟨"b", some "pr", none, some (.num 0)⟩]

/-- Batch for the C2 amended witness: truthy, pairwise distinct ids. -/
def qsC2w : List Query :=
  [⟨"a", some "pr", none, some (.num 5)⟩, ⟨"b", some "pr", none, some (.str "x")⟩]

/-- Batch for the C7 witness: numeric-string identifiers `"1"`, `"2.5"`,
`"10"` — ascending under JS `Number` coercion (1 < 2.5 < 10) though
`"10"` precedes both others lexicographically. -/
def qsC7 : List Query :=
  [⟨"a", some "pr", none, some (.str "1")⟩,
   ⟨"b", some "pr", none, some (.str "2.5")⟩,
   ⟨"c", some "pr", none, some (.str "10")⟩]

/-- 250 identical query texts, for the chunk-size instance of C4. -/
def texts250 : List String := List.replicate 250 "wall"

/-- A well-formed query used beside `qBad` in the C10 batch. -/
def qGood : Query := ⟨"door", some "pr", none, some (.num 1)⟩

/-- A query with `uniclass_type` absent: its `.toUpperCase()` throws. -/
def qBad : Query := ⟨"window", none, none, some (.num 2)⟩

/-! ## General lemmas -/

@[simp] theorem length_mapWithIndex (f : Nat → α → β) (k : Nat) (l : List α) :
    (mapWithIndex f k l).length = l.length := by
  induction l generalizing k with
  | nil => rfl
  | cons a as ih => simp [mapWithIndex, ih]

theorem getElem?_mapWithIndex (f : Nat → α → β) (k i : Nat) (l : List α) :
    (mapWithIndex f k l)[i]? = (l[i]?).map (f (k + i)) := by
  induction l generalizing k i with
  | nil => simp [mapWithIndex]
  | cons a as ih =>
    cases i with
    | zero => simp [mapWithIndex]
    | succ j =>
      simp only [mapWithIndex, List.getElem?_cons_succ]
      rw [ih]
      have h : k + 1 + j = k + (j + 1) := by omega
      rw [h]

theorem map_mapWithIndex (f : Nat → α → β) (h : β → γ) (k : Nat) (l : List α) :
    (mapWithIndex f k l).map h = mapWithIndex (fun i a => h (f i a)) k l := by
  induction l generalizing k with
  | nil => rfl
  | cons a as ih => simp [mapWithIndex, ih]

theorem mapWithIndex_congr (f g : Nat → α → β) (k : Nat) (l : List α)
    (h : ∀ i a, a ∈ l → f i a = g i a) :
    mapWithIndex f k l = mapWithIndex g k l := by
  induction l generalizing k with
  | nil => rfl
  | cons a as ih =>
    simp only [mapWithIndex, List.cons.injEq]
    exact ⟨h k a (List.mem_cons_self a as),
      ih _ fun i b hb => h i b (List.mem_cons_of_mem a hb)⟩

theorem chunksOfAux_flatten (c : Nat) (hc : 1 ≤ c) :
    ∀ (fuel : Nat) (l : List α), l.length ≤ fuel →
      (chunksOfAux c fuel l).flatten = l := by
  intro fuel
  induction fuel with
  | zero =>
    intro l hl
    rw [Nat.le_zero, List.length_eq_zero] at hl
    subst hl; rfl
  | succ n ih =>
    intro l hl
    cases l with
    | nil => rfl
    | cons a as =>
      simp only [chunksOfAux, List.flatten_cons]
      have hlen : ((a :: as).drop c).length ≤ n := by
        simp only [List.length_drop, List.length_cons]
        simp only [List.length_cons] at hl
        omega
      rw [ih _ hlen, List.take_append_drop]

theorem chunksOf_flatten (c : Nat) (hc : 1 ≤ c) (l : List α) :
    (chunksOf c l).flatten = l :=
  chunksOfAux_flatten c hc l.length l le_rfl

theorem length_le_of_mem_chunksOfAux (c : Nat) :
    ∀ (fuel : Nat) (l : List α) (ch : List α),
      ch ∈ chunksOfAux c fuel l → ch.length ≤ c := by
  intro fuel
  induction fuel with
  | zero => intro l ch h; simp [chunksOfAux] at h
  | succ n ih =>
    intro l ch h
    cases l with
    | nil => simp [chunksOfAux] at h
    | cons a as =>
      simp only [chunksOfAux, List.mem_cons] at h
      rcases h with h | h
      · subst h; simp [List.length_take]
      · exact ih _ _ h

theorem length_le_of_mem_chunksOf (c : Nat) (l : List α) (ch : List α)
    (h : ch ∈ chunksOf c l) : ch.length ≤ c :=
  length_le_of_mem_chunksOfAux c l.length l ch h

theorem map_length_chunksOfAux (c : Nat) :
    ∀ (fuel : Nat) (l : List α),
      (chunksOfAux c fuel l).map List.length = chunkLens c fuel l.length := by
  intro fuel
  induction fuel with
  | zero => intro l; simp [chunksOfAux, chunkLens]
  | succ n ih =>
    intro l
    cases l with
    | nil => simp [chunksOfAux, chunkLens]
    | cons a as =>
      simp only [chunksOfAux, List.map_cons, List.length_cons, chunkLens]
      rw [ih, List.length_take]
      congr 1
      simp

theorem map_length_chunksOf (c : Nat) (l : List α) :
    (chunksOf c l).map List.length = chunkLens c l.length l.length :=
  map_length_chunksOfAux c l.length l

theorem LengthRespecting.of_pointwise {respond : Provider} {g : String → Vec}
    (h : Pointwise respond g) : LengthRespecting respond := by
  intro k ch vs hvs
  rw [h k ch vs hvs, List.length_map]

theorem length_getBatchEmbeddings {respond : Provider} (hlen : LengthRespecting respond)
    (k : Nat) (ch : List String) :
    (getBatchEmbeddings (respond k) ch).length = ch.length := by
  unfold getBatchEmbeddings
  cases hr : respond k ch with
  | none => simp
  | some vs => exact hlen k ch vs hr

theorem length_embedChunks {respond : Provider} (hlen : LengthRespecting respond) :
    ∀ (chunks : List (List String)) (k : Nat),
      (embedChunks respond k chunks).length = chunks.flatten.length := by
  intro chunks
  induction chunks with
  | nil => intro k; rfl
  | cons ch rest ih =>
    intro k
    simp only [embedChunks, List.flatten_cons, List.length_append,
      length_getBatchEmbeddings hlen, ih]

theorem length_embedPipeline {respond : Provider} (hlen : LengthRespecting respond)
    (texts : List String) :
    (embedPipeline respond texts).length = texts.length := by
  rw [embedPipeline, length_embedChunks hlen, chunksOf_flatten 100 (by omega)]

theorem getElem?_embedChunks {respond : Provider} {g : String → Vec}
    (hpt : Pointwise respond g) :
    ∀ (chunks : List (List String)) (k i : Nat), i < chunks.flatten.length →
      (embedChunks respond k chunks)[i]? = (chunks.flatten[i]?).map (fun t => some (g t)) ∨
      (embedChunks respond k chunks)[i]? = some none := by
  intro chunks
  induction chunks with
  | nil => intro k i hi; simp at hi
  | cons ch rest ih =>
    intro k i hi
    have hE : (getBatchEmbeddings (respond k) ch).length = ch.length :=
      length_getBatchEmbeddings (LengthRespecting.of_pointwise hpt) k ch
    simp only [List.flatten_cons, List.length_append] at hi
    by_cases hlt : i < ch.length
    · rw [embedChunks, List.getElem?_append_left (by omega), List.flatten_cons,
        List.getElem?_append_left hlt]
      unfold getBatchEmbeddings
      cases hr : respond k ch with
      | none =>
        right
        rw [List.getElem?_replicate]
        simp [hlt]
      | some vs =>
        left
        rw [hpt k ch vs hr, List.getElem?_map]
    · rw [embedChunks, List.getElem?_append_right (by omega), List.flatten_cons,
        List.getElem?_append_right (by omega), hE]
      exact ih (k + 1) (i - ch.length) (by omega)

theorem processQuery_request_id (store : Store) (emb : Option Vec) (i : Nat) (q : Query) :
    (processQuery store emb i q).request_id = effectiveId q.request_id i := by
  cases emb with
  | none => rfl
  | some v =>
    cases hq : q.uniclass_type with
    | none => simp [processQuery, hq]
    | some ut =>
      cases hs : store v (jsToUpper ut) with
      | err => simp [processQuery, hq, hs]
      | ok data => cases data <;> simp [processQuery, hq, hs]

theorem processQueryP0_eq_ok (store : Store) (emb : Option Vec) (i : Nat) (q : Query)
    (hut : q.uniclass_type.isSome) :
    processQueryP0 store emb i q = .ok (processQuery store emb i q) := by
  cases emb with
  | none => rfl
  | some v =>
    cases h : q.uniclass_type with
    | none => rw [h] at hut; simp at hut
    | some ut =>
      cases hs : store v (jsToUpper ut) with
      | err => simp [processQueryP0, processQuery, h, hs]
      | ok data => cases data <;> simp [processQueryP0, processQuery, h, hs]

theorem awaitAll_ok (g : Nat → α → β) :
    ∀ (l : List α) (k : Nat),
      awaitAll (mapWithIndex (fun i a => Except.ok (g i a)) k l) =
        .ok (mapWithIndex g k l) := by
  intro l
  induction l with
  | nil => intro k; rfl
  | cons a as ih =>
    intro k
    simp only [mapWithIndex, awaitAll, ih, Except.map]

theorem ChunkedSeq.handler_arr (respond : Provider) (store : Store) (qs : List Query)
    (hne : qs ≠ []) :
    ChunkedSeq.handler respond store (.arr qs) =
      .ok (ChunkedSeq.batchResults respond store qs).length
        (ChunkedSeq.batchResults respond store qs) := by
  cases qs with
  | nil => exact absurd rfl hne
  | cons q0 rest => rfl

/-! ## Claims -/

/-- C1: for every input batch of N queries (N ≥ 1) that passes
validation and produces a 200 response, the response `results` array of
the sequential chunked handler has exactly N entries — one per input
query, at the query's own position, with every failure mode materialized
as an entry rather than dropping the item. -/
theorem c1_one_result_per_query (respond : Provider) (store : Store) (qs : List Query)
    (hne : qs ≠ []) :
    ∃ rs, ChunkedSeq.handler respond store (.arr qs) = .ok rs.length rs ∧
      rs.length = qs.length ∧
      ∀ i (hi : i < qs.length),
        rs[i]? = some (processQuery store
          ((embedPipeline respond (qs.map Query.query))[i]?.join) i qs[i]) := by
  refine ⟨ChunkedSeq.batchResults respond store qs,
    ChunkedSeq.handler_arr respond store qs hne, by simp [ChunkedSeq.batchResults], ?_⟩
  intro i hi
  rw [ChunkedSeq.batchResults, getElem?_mapWithIndex]
  simp [List.getElem?_eq_getElem hi]

/-- C1 witness: a singleton batch yields a 200 response with exactly one
result entry. -/
theorem c1_witness :
    ∃ rs, ChunkedSeq.handler respond0 store0 (.arr [q0]) = .ok rs.length rs ∧
      rs.length = 1 := by
  obtain ⟨rs, h1, h2, _⟩ := c1_one_result_per_query respond0 store0 [q0] (by simp)
  exact ⟨rs, h1, h2⟩

/-- C4: the chunked embedding fetcher partitions the texts into
contiguous order-preserving chunks of at most 100 (250 texts → exactly 3
chunks of sizes 100, 100, 50), and for a provider honouring the
one-vector-per-text contract the flattened embedding sequence has length
exactly N, with element `i` either the provider's vector for text `i` or
a failure marker. -/
theorem c4_chunking (respond : Provider) (g : String → Vec) (texts : List String)
    (hpt : Pointwise respond g) :
    (chunksOf 100 texts).flatten = texts ∧
    (∀ ch ∈ chunksOf 100 texts, ch.length ≤ 100) ∧
    (texts.length = 250 →
      (chunksOf 100 texts).length = 3 ∧
      (chunksOf 100 texts).map List.length = [100, 100, 50]) ∧
    (embedPipeline respond texts).length = texts.length ∧
    (∀ i, i < texts.length →
      (embedPipeline respond texts)[i]? = (texts[i]?).map (fun t => some (g t)) ∨
      (embedPipeline respond texts)[i]? = some none) := by
  have hflat := chunksOf_flatten 100 (by omega) texts
  refine ⟨hflat, fun ch h => length_le_of_mem_chunksOf 100 texts ch h, ?_, ?_, ?_⟩
  · intro h250
    have hmap : (chunksOf 100 texts).map List.length = chunkLens 100 250 250 := by
      rw [map_length_chunksOf, h250]
    have hval : chunkLens 100 250 250 = [100, 100, 50] := by decide
    refine ⟨?_, hmap.trans hval⟩
    have hlen := congrArg List.length (hmap.trans hval)
    simpa using hlen
  · exact length_embedPipeline (LengthRespecting.of_pointwise hpt) texts
  · intro i hi
    have h := getElem?_embedChunks hpt (chunksOf 100 texts) 0 i (by rw [hflat]; exact hi)
    rw [hflat] at h
    exact h

/-- C4 witness: 250 texts, an always-succeeding pointwise provider —
chunk sizes are 100, 100, 50 and the flattened output has length 250. -/
theorem c4_witness :
    (chunksOf 100 texts250).map List.length = [100, 100, 50] ∧
    (embedPipeline respond0 texts250).length = 250 := by
  have h := c4_chunking respond0 (fun _ => [1]) texts250
    (fun k ch vs hv => (Option.some.inj hv).symm)
  refine ⟨(h.2.2.1 (by simp only [texts250, List.length_replicate])).2, ?_⟩
  rw [h.2.2.2.1]
  simp only [texts250, List.length_replicate]

/-- C5: for each query with a well-formed `uniclass_type`, exactly one
of four mutually exclusive outcomes is produced, checked in priority
order — no embedding → `Embedding failed:0.00`; lookup error →
`Database error:0.00`; zero candidates → `No match found:0.00`; one or
more candidates → success entry whose primary match is the first
candidate and whose alternatives are the remaining ones (at most 2 when
the store honours the `match_count = 3` cap). -/
theorem c5_outcome_priority (store : Store) (emb : Option Vec) (i : Nat) (q : Query)
    (ut : String) (hut : q.uniclass_type = some ut)
    (hcap : ∀ v f data, store v f = .ok data → data.length ≤ 3) :
    (emb = none →
      processQuery store emb i q =
        ⟨effectiveId q.request_id i, "Embedding failed:0.00", 0, []⟩) ∧
    (∀ v, emb = some v → store v (jsToUpper ut) = .err →
      processQuery store emb i q =
        ⟨effectiveId q.request_id i, "Database error:0.00", 0, []⟩) ∧
    (∀ v, emb = some v → store v (jsToUpper ut) = .ok [] →
      processQuery store emb i q =
        ⟨effectiveId q.request_id i, "No match found:0.00", 0, []⟩) ∧
    (∀ v best rest, emb = some v → store v (jsToUpper ut) = .ok (best :: rest) →
      processQuery store emb i q =
        ⟨effectiveId q.request_id i,
          renderText (q.output_format.getD "COBIE") best ++ ":" ++ toFixed2 best.similarity,
          best.similarity, rest.map (fun c => ⟨c.code, c.title, c.similarity⟩)⟩ ∧
      rest.length ≤ 2) := by
  refine ⟨?_, ?_, ?_, ?_⟩
  · intro h; subst h; rfl
  · intro v h hs; subst h; simp [processQuery, hut, hs]
  · intro v h hs; subst h; simp [processQuery, hut, hs]
  · intro v best rest h hs
    subst h
    refine ⟨by simp [processQuery, hut, hs], ?_⟩
    have := hcap v (jsToUpper ut) (best :: rest) hs
    simp at this
    omega

/-- C5 witness: with a one-candidate store, a present embedding and
format `CODE`, the success branch fires and produces the formatted
entry. -/
theorem c5_witness :
    processQuery store0 (some [1]) 0 q0 =
      ⟨.num 0, "Ss_25_10:0.87", mkRat 87 100, []⟩ := by
  have h := c5_outcome_priority store0 (some [1]) 0 q0 "pr" rfl
    (fun v f data hd => by
      simp only [store0] at hd
      cases hd
      decide)
  have h4 := (h.2.2.2 [1] ⟨"Ss_25_10", "Walls", mkRat 87 100⟩ [] rfl rfl).1
  rw [h4]
  decide

/-- C6: for every successful match, the formatted match string is the
rendered text per `output_format` (`CODE` → code alone, `TITLE` → title
alone, default and any unrecognized value → `code:title`) followed by a
colon and the similarity score to exactly two decimal places; with code
`Ss_25_10` and similarity 0.87 under `CODE`, exactly `Ss_25_10:0.87`. -/
theorem c6_format (store : Store) (v : Vec) (i : Nat) (q : Query) (ut : String)
    (best : Candidate) (rest : List Candidate)
    (hut : q.uniclass_type = some ut)
    (hdata : store v (jsToUpper ut) = .ok (best :: rest)) :
    (processQuery store (some v) i q).match_ =
      renderText (q.output_format.getD "COBIE") best ++ ":" ++ toFixed2 best.similarity ∧
    (∀ f c, jsToUpper f = "CODE" → renderText f c = Candidate.code c) ∧
    (∀ f c, jsToUpper f = "TITLE" → renderText f c = Candidate.title c) ∧
    (∀ f c, jsToUpper f ≠ "CODE" → jsToUpper f ≠ "TITLE" →
      renderText f c = Candidate.code c ++ ":" ++ Candidate.title c) ∧
    toFixed2 (mkRat 87 100) = "0.87" := by
  refine ⟨by simp [processQuery, hut, hdata], ?_, ?_, ?_, by decide⟩
  · intro f c h
    simp [renderText, h]
  · intro f c h
    simp [renderText, h]
  · intro f c h1 h2
    simp only [renderText]
    rw [if_neg h1, if_neg h2]

/-- C6 witness: the concrete instance from the spec — `CODE` format,
code `Ss_25_10`, similarity 0.87 — renders exactly `Ss_25_10:0.87`. -/
theorem c6_witness :
    (processQuery store0 (some [1]) 1 ⟨"wall", some "pr", some "CODE", none⟩).match_ =
      "Ss_25_10:0.87" := by
  have h := c6_format store0 [1] 1 ⟨"wall", some "pr", some "CODE", none⟩ "pr"
    ⟨"Ss_25_10", "Walls", mkRat 87 100⟩ [] rfl rfl
  rw [h.1]
  decide

/-- C9: every failure ResultEntry produced by the batch handlers'
per-item logic — the `Embedding failed`, `Processing error`,
`Database error` and `No match found` branches of the sequential
handler, and the corresponding branches of the parallel handler —
carries `confidence = 0` and an empty `alternatives` list. -/
theorem c9_failure_shape (store : Store) (i : Nat) (q : Query) :
    (processQuery store none i q =
      ⟨effectiveId q.request_id i, "Embedding failed:0.00", 0, []⟩) ∧
    (∀ v, q.uniclass_type = none →
      processQuery store (some v) i q =
        ⟨effectiveId q.request_id i, "Processing error:0.00", 0, []⟩) ∧
    (∀ v ut, q.uniclass_type = some ut → store v (jsToUpper ut) = .err →
      processQuery store (some v) i q =
        ⟨effectiveId q.request_id i, "Database error:0.00", 0, []⟩) ∧
    (∀ v ut, q.uniclass_type = some ut → store v (jsToUpper ut) = .ok [] →
      processQuery store (some v) i q =
        ⟨effectiveId q.request_id i, "No match found:0.00", 0, []⟩) ∧
    (processQueryP0 store none i q =
      .ok ⟨effectiveId q.request_id i, "Embedding failed:0.00", 0, []⟩) ∧
    (∀ v ut, q.uniclass_type = some ut → store v (jsToUpper ut) = .err →
      processQueryP0 store (some v) i q =
        .ok ⟨effectiveId q.request_id i, "Database error:0.00", 0, []⟩) ∧
    (∀ v ut, q.uniclass_type = some ut → store v (jsToUpper ut) = .ok [] →
      processQueryP0 store (some v) i q =
        .ok ⟨effectiveId q.request_id i, "No match found:0.00", 0, []⟩) := by
  refine ⟨rfl, ?_, ?_, ?_, rfl, ?_, ?_⟩
  · intro v h; simp [processQuery, h]
  · intro v ut h hs; simp [processQuery, h, hs]
  · intro v ut h hs; simp [processQuery, h, hs]
  · intro v ut h hs; simp [processQueryP0, h, hs]
  · intro v ut h hs; simp [processQueryP0, h, hs]

/-- C9 witness: three concrete failure entries, all with confidence 0
and no alternatives. -/
theorem c9_witness :
    processQuery storeErr none 0 q0 = ⟨.num 0, "Embedding failed:0.00", 0, []⟩ ∧
    processQuery storeErr (some [1]) 0 ⟨"x", none, none, none⟩ =
      ⟨.num 0, "Processing error:0.00", 0, []⟩ ∧
    processQuery storeErr (some [1]) 0 q0 = ⟨.num 0, "Database error:0.00", 0, []⟩ := by
  have h1 := c9_failure_shape storeErr 0 q0
  have h2 := c9_failure_shape storeErr 0 ⟨"x", none, none, none⟩
  exact ⟨h1.1, h2.2.1 [1] rfl, h1.2.2.1 [1] "pr" rfl rfl⟩

/-- C2 counterexample: the claim fails for falsy caller identifiers.  In
the batch `qsC2` the caller supplies identifiers `1` and `0`; the falsy
`0` (at position 1) is replaced by the positional index `1` by the
`request_id || i` fallback, so the response carries the duplicate
identifier list `[1, 1]` — the supplied identifier `0` is omitted and a
duplicate appears, contradicting the claimed bijection "also when a
caller supplies a falsy identifier such as 0". -/
theorem c2_counterexample :
    responseIds (ChunkedSeq.handler respond0 store0 (.arr qsC2)) =
      some [.num 1, .num 1] ∧
    qsC2.map Query.request_id = [some (.num 1), some (.num 0)] :=
  ⟨by decide, by decide⟩

/-- C2 (amended): for every batch accepted by validation in which every
*supplied* identifier is truthy (nonzero number, nonempty string), the
`request_id` values in the response equal, position by position, the
caller-supplied identifiers (or the positional index where absent); in
particular when those intended identifiers are pairwise distinct the
correspondence is a bijection with no duplicates and no omissions.  A
falsy supplied identifier (`0` or `""`) is instead replaced by the
positional index. -/
theorem c2_amended (respond : Provider) (store : Store) (qs : List Query)
    (hne : qs ≠ [])
    (htruthy : ∀ q ∈ qs, ∀ r, q.request_id = some r → r.truthy = true) :
    ∃ rs, ChunkedSeq.handler respond store (.arr qs) = .ok rs.length rs ∧
      rs.map ResultEntry.request_id = specIntendedIds qs ∧
      ((specIntendedIds qs).Nodup → (rs.map ResultEntry.request_id).Nodup) := by
  have hmap : (ChunkedSeq.batchResults respond store qs).map ResultEntry.request_id =
      specIntendedIds qs := by
    rw [ChunkedSeq.batchResults, map_mapWithIndex, specIntendedIds]
    apply mapWithIndex_congr
    intro i a ha
    rw [processQuery_request_id]
    cases hr : a.request_id with
    | none => rfl
    | some r => simp [effectiveId, htruthy a ha r hr]
  exact ⟨ChunkedSeq.batchResults respond store qs,
    ChunkedSeq.handler_arr respond store qs hne, hmap, fun h => hmap ▸ h⟩

/-- C2 witness: with truthy distinct identifiers `5` and `"x"` the
response identifiers are exactly the supplied ones, in order. -/
theorem c2_amended_witness :
    ∃ rs, ChunkedSeq.handler respond0 store0 (.arr qsC2w) = .ok rs.length rs ∧
      rs.map ResultEntry.request_id = [.num 5, .str "x"] := by
  obtain ⟨rs, h1, h2, _⟩ := c2_amended respond0 store0 qsC2w (by simp [qsC2w])
    (by
      intro q hq r hr
      simp only [qsC2w, List.mem_cons, List.not_mem_nil, or_false] at hq
      rcases hq with rfl | rfl
      · injection hr with h
        subst h
        decide
      · injection hr with h
        subst h
        decide)
  exact ⟨rs, h1, by rw [h2]; decide⟩

/-- C3 counterexample: the claim fails on the non-chunked handler
(`part_001`): when its single batch embedding call fails — an
"embedding failure for one whole chunk", here the only chunk — no
sentinel entries are produced; the whole batch aborts with a 500
(`Failed to get batch embeddings`), although the batch passed
validation and no unexpected handler-level exception occurred (the
failure is the explicitly checked `!embeddings` branch). -/
theorem c3_counterexample :
    CappedNoChunk.handler (fun _ => none) store0 (.arr [q0]) =
      (.serverError "Failed to get batch embeddings", 1, 0) := by decide

/-- C3 (amended): in the chunked sequential handler, all per-item and
per-chunk failures are caught and converted to sentinel ResultEntries
and never abort sibling items or the whole batch — a validated batch
always gets a 200 with one entry per query, a failed chunk degrades to a
run of failure markers, and embedding / lookup / per-item exceptions
become the respective sentinels; in the non-chunked variant, however,
failure of its single whole-batch embedding call produces a batch-wide
500. -/
theorem c3_amended (respond : Provider) (store : Store) (qs : List Query)
    (hne : qs ≠ []) :
    (∃ rs, ChunkedSeq.handler respond store (.arr qs) = .ok rs.length rs ∧
      rs.length = qs.length) ∧
    (∀ k ch, respond k ch = none →
      getBatchEmbeddings (respond k) ch = List.replicate ch.length none) ∧
    (∀ i q, processQuery store none i q =
      ⟨effectiveId q.request_id i, "Embedding failed:0.00", 0, []⟩) ∧
    (∀ v ut i q, q.uniclass_type = some ut → store v (jsToUpper ut) = .err →
      processQuery store (some v) i q =
        ⟨effectiveId q.request_id i, "Database error:0.00", 0, []⟩) ∧
    (∀ v i q, q.uniclass_type = none →
      processQuery store (some v) i q =
        ⟨effectiveId q.request_id i, "Processing error:0.00", 0, []⟩) := by
  refine ⟨⟨ChunkedSeq.batchResults respond store qs,
    ChunkedSeq.handler_arr respond store qs hne,
    by simp [ChunkedSeq.batchResults]⟩, ?_, ?_, ?_, ?_⟩
  · intro k ch h; simp [getBatchEmbeddings, h]
  · intro i q; rfl
  · intro v ut i q h hs; simp [processQuery, h, hs]
  · intro v i q h; simp [processQuery, h]

/-- C3 witness: even with an always-failing provider and an
always-erroring store, the chunked sequential handler answers 200 with
one entry for the one query. -/
theorem c3_amended_witness :
    ∃ rs, ChunkedSeq.handler (fun _ _ => none) storeErr (.arr [q0]) = .ok rs.length rs ∧
      rs.length = 1 := by
  obtain ⟨⟨rs, h1, h2⟩, -, -, -, -⟩ := c3_amended (fun _ _ => none) storeErr [q0] (by simp)
  exact ⟨rs, h1, h2⟩

/-- C7: when no per-item promise rejects, every effective identifier is
an actual number under JS `Number` coercion (no `NaN`, where the real
comparator's behaviour is implementation-defined), and those numeric
values ascend with input position, the parallel handler's response list
is exactly the per-item entries in the caller's input order (the
numeric sort is the identity on it); numeric identifiers compare
numerically, not lexicographically — `"2.5"` coerces to `5/2`, the key
of `"2"` precedes the key of `"10"` although `"10"` precedes `"2"` in
lexicographic (characterwise) string order.  Promise completion order
cannot influence the result: `Promise.all` fills slot `i` from query
`i` by position. -/
theorem c7_output_order (respond : Provider) (store : Store) (qs : List Query)
    (hne : qs ≠ [])
    (hut : ∀ q ∈ qs, q.uniclass_type.isSome)
    (hnum : ∀ q ∈ qs, ∀ r, q.request_id = some r → (toNumber r).isSome = true)
    (hasc : (mapWithIndex (fun i q => idKey (effectiveId q.request_id i)) 0 qs).Pairwise
      (· ≤ ·)) :
    ParallelSort.handler respond store (.arr qs) =
      .ok qs.length (ChunkedSeq.batchResults respond store qs) ∧
    (∀ q ∈ qs, ∀ i : Nat, (toNumber (effectiveId q.request_id i)).isSome = true) ∧
    toNumber (RId.str "2.5") = some (mkRat 5 2) ∧
    idKey (.str "2") ≤ idKey (.str "10") ∧ "10".toList < "2".toList := by
  refine ⟨?_, ?_, by decide, by decide, by decide⟩
  case refine_2 =>
    intro q hq i
    cases hr : q.request_id with
    | none => rfl
    | some r =>
      cases ht : r.truthy with
      | true => simpa [effectiveId, ht] using hnum q hq r hr
      | false => simp [effectiveId, ht, toNumber]
  cases qs with
  | nil => exact absurd rfl hne
  | cons a as =>
    simp only [ParallelSort.handler]
    rw [mapWithIndex_congr _
      (fun i qi => Except.ok (processQuery store
        ((embedPipeline respond ((a :: as).map Query.query))[i]?.join) i qi)) 0 (a :: as)
      (fun i b hb => processQueryP0_eq_ok store _ i b (hut b hb))]
    rw [awaitAll_ok (fun i qi => processQuery store
      ((embedPipeline respond ((a :: as).map Query.query))[i]?.join) i qi) (a :: as) 0]
    have hsorted : List.Sorted entryLe
        (mapWithIndex (fun i qi => processQuery store
          ((embedPipeline respond ((a :: as).map Query.query))[i]?.join) i qi) 0 (a :: as)) := by
      have hkeys : (mapWithIndex (fun i qi => processQuery store
          ((embedPipeline respond ((a :: as).map Query.query))[i]?.join) i qi) 0 (a :: as)).map
            (fun e => idKey e.request_id) =
          mapWithIndex (fun i q => idKey (effectiveId q.request_id i)) 0 (a :: as) := by
        rw [map_mapWithIndex]
        exact mapWithIndex_congr _ _ 0 _ (fun i b hb => by rw [processQuery_request_id])
      have hp := hasc
      rw [← hkeys] at hp
      exact List.Pairwise.of_map (fun e => idKey e.request_id) (fun a b h => h) hp
    show BatchResponse.ok _ _ = _
    rw [jsSortById, List.Sorted.insertionSort_eq hsorted]
    simp [ChunkedSeq.batchResults]

/-- C7 witness: identifiers `"1"`, `"2.5"`, `"10"` (ascending under JS
`Number` coercion, not lexicographically ordered) come back in the
caller's input order. -/
theorem c7_witness :
    ParallelSort.handler respond0 store0 (.arr qsC7) =
      .ok 3 (ChunkedSeq.batchResults respond0 store0 qsC7) ∧
    (ChunkedSeq.batchResults respond0 store0 qsC7).map ResultEntry.request_id =
      [.str "1", .str "2.5", .str "10"] := by
  have h := c7_output_order respond0 store0 qsC7 (by simp [qsC7]) (by decide)
    (by
      intro q hq r hr
      simp only [qsC7, List.mem_cons, List.not_mem_nil, or_false] at hq
      rcases hq with rfl | rfl | rfl <;>
        (injection hr with h
         subst h
         decide))
    (by decide)
  exact ⟨h.1, by decide⟩

/-- C8: the input validator of the capped handler rejects an over-sized
batch with a 400 carrying the batch-too-large message before any
embedding or lookup work is performed (both instrumented call counters
are 0), and rejects a missing, non-array, or empty batch with 400 and
`Missing or invalid queries array`. -/
theorem c8_validation (respond1 : List String → Option (List (Option Vec)))
    (store : Store) :
    (∀ qs : List Query, 200 < qs.length →
      CappedNoChunk.handler respond1 store (.arr qs) =
        (.badRequest "Maximum 200 queries per batch", 0, 0)) ∧
    CappedNoChunk.handler respond1 store .absent =
      (.badRequest "Missing or invalid queries array", 0, 0) ∧
    CappedNoChunk.handler respond1 store .notArray =
      (.badRequest "Missing or invalid queries array", 0, 0) ∧
    CappedNoChunk.handler respond1 store (.arr []) =
      (.badRequest "Missing or invalid queries array", 0, 0) := by
  refine ⟨?_, rfl, rfl, rfl⟩
  intro qs h
  cases qs with
  | nil => simp at h
  | cons a as =>
    simp only [CappedNoChunk.handler]
    rw [if_pos h]

/-- C8 witness: a batch of 201 queries is rejected with the
batch-too-large 400 and zero provider/store calls. -/
theorem c8_witness :
    CappedNoChunk.handler (fun _ => none) store0 (.arr (List.replicate 201 q0)) =
      (.badRequest "Maximum 200 queries per batch", 0, 0) :=
  (c8_validation (fun _ => none) store0).1 (List.replicate 201 q0)
    (by rw [List.length_replicate]; omega)

/-- C10: in the parallel-dispatch handler there is a valid batch — here
one good query plus one whose `uniclass_type` is absent while its
embedding succeeds — for which the per-item exception is not caught per
item: the rejected promise propagates through the joint await to the
outer handler and the whole request returns 500 with no per-item
results, whereas the sequential handler turns the same item into a
`Processing error:0.00` sentinel and keeps the sibling's result. -/
theorem c10_uncaught_rejection :
    qBad.uniclass_type = none ∧
    ParallelSort.handler respond0 store0 (.arr [qGood, qBad]) =
      .serverError "Internal server error" ∧
    ChunkedSeq.handler respond0 store0 (.arr [qGood, qBad]) =
      .ok 2 [⟨.num 1, "Ss_25_10:Walls:0.87", mkRat 87 100, []⟩,
             ⟨.num 2, "Processing error:0.00", 0, []⟩] :=
  ⟨rfl, by decide, by decide⟩
